import Mathlib

/-!
Verification development for the amplifier-distro serving core.

Shallow embedding of:
  * server/apps/chat/translator.py  (SessionEventTranslator)
  * server/protocol_adapters.py     (ApprovalSystem)
  * server/apps/chat/connection.py  (ChatConnection dispatch and fan-out loop)

Python payloads are duck-typed; we embed them as a JSON-like inductive
value universe `Val` (floats, bytes and exotic objects are outside the
universe; no claim depends on them).  Python exceptions are modelled by
an explicit `PyErr` error type: fallible code returns `Except PyErr`,
and a statement "never raises" becomes "always returns .ok".
-/

namespace Amplifier

/-- Python-ish runtime values.  `obj` models attribute-shaped objects
(`getattr` access), `dict` models mappings (`.get` access). -/
inductive Val where
  | none : Val
  | int (n : Int) : Val
  | bool (b : Bool) : Val
  | str (s : String) : Val
  | dict (entries : List (String × Val)) : Val
  | obj (attrs : List (String × Val)) : Val
  | list (elems : List Val) : Val
deriving Repr

/-- Python exceptions reachable in the embedded code. -/
inductive PyErr where
  | attributeError : PyErr
  | typeError : PyErr
  | valueError : PyErr
deriving Repr, DecidableEq

/-- A Python dict payload: association list (keys unique at construction
sites, lookup returns the first match). -/
abbrev Payload := List (String × Val)

/-- First-match association lookup (Python `d.get(k)` presence check);
keys are unique at every construction site, so first-match agrees with
dict semantics. -/
def listLookup {α : Type} (l : List (String × α)) (k : String) : Option α :=
  match l with
  | [] => Option.none
  | (k2, v) :: rest => if k2 = k then some v else listLookup rest k

/-- Python `d.get(k)` — missing key yields `None`. -/
def getVal (d : Payload) (k : String) : Val :=
  match listLookup d k with
  | some v => v
  | Option.none => .none

/-- Python `d.get(k, dflt)`. -/
def getValD (d : Payload) (k : String) (dflt : Val) : Val :=
  match listLookup d k with
  | some v => v
  | Option.none => dflt

/-- Python `k in d` / used for `key not in self._block_map`. -/
def hasKey (d : Payload) (k : String) : Bool :=
  match listLookup d k with
  | some _ => true
  | Option.none => false

/-- Python dict assignment `d[k] = v`: overwrite in place if present,
append otherwise (insertion order preserved, as CPython dicts do). -/
def setKey {α : Type} (d : List (String × α)) (k : String) (v : α) : List (String × α) :=
  match d with
  | [] => [(k, v)]
  | (k2, w) :: rest => if k2 = k then (k2, v) :: rest else (k2, w) :: setKey rest k v

/-- Python `d.pop(k, ...)`: remove the entry for `k` (value side handled
at call sites; keys are unique, so removing every match coincides with
removing the one entry a dict holds). -/
def delKey {α : Type} (d : List (String × α)) (k : String) : List (String × α) :=
  match d with
  | [] => []
  | (k2, w) :: rest => if k2 = k then delKey rest k else (k2, w) :: delKey rest k

/-- Python `getattr(v, name, dflt)` within the universe: only `obj`
carries attributes. -/
def attrGetD (v : Val) (name : String) (dflt : Val) : Val :=
  match v with
  | .obj attrs => getValD attrs name dflt
  | _ => dflt

/-- Python `getattr(v, name)` (no default): raises `AttributeError` on a
missing attribute and on every non-object value (in particular a dict
has no `output` attribute). -/
def attrGet (v : Val) (name : String) : Except PyErr Val :=
  match v with
  | .obj attrs =>
      match listLookup attrs name with
      | some w => .ok w
      | Option.none => .error .attributeError
  | _ => .error .attributeError

/-- Python `hasattr(v, name)`. -/
def hasAttr (v : Val) (name : String) : Bool :=
  match v with
  | .obj attrs => hasKey attrs name
  | _ => false

/-- Python truthiness. -/
def pyTruthy : Val → Bool
  | .none => false
  | .int n => n ≠ 0
  | .bool b => b
  | .str s => s ≠ ""
  | .dict entries => ¬ entries.isEmpty
  | .obj _ => true
  | .list elems => ¬ elems.isEmpty

/-- Python `a or b` (value-returning). -/
def pyOr (a b : Val) : Val := if pyTruthy a then a else b

/-- Valid tail of a Python int literal after its first digit:
digits with single interior underscores (`1_0` ok, `1__0`, `1_` not). -/
def digitRun : List Char → Bool
  | [] => true
  | '_' :: cs =>
      match cs with
      | c :: cs2 => c.isDigit && digitRun cs2
      | [] => false
  | c :: cs => c.isDigit && digitRun cs

/-- A nonempty digit group in Python `int()` syntax. -/
def digitGroup : List Char → Bool
  | [] => false
  | c :: cs => c.isDigit && digitRun cs

/-- Digits of a valid group, underscores removed. -/
def stripUnderscores (cs : List Char) : List Char :=
  cs.filter (fun c => c ≠ '_')

/-- Fold a digit list to a natural number. -/
def digitsToNat (cs : List Char) : Nat :=
  cs.foldl (fun acc c => 10 * acc + (c.toNat - '0'.toNat)) 0

/-- ASCII-whitespace trim on both ends, as Python `int()` applies. -/
def trimChars (cs : List Char) : List Char :=
  ((cs.dropWhile Char.isWhitespace).reverse.dropWhile Char.isWhitespace).reverse

/-- Python `int(s)` on a string: ASCII-whitespace trim, optional sign,
digit group with interior underscores.  (Unicode digits are outside the
model; no claim depends on the exact parsable set.) -/
def parseIntPy (s : String) : Option Int :=
  let cs := trimChars s.toList
  match cs with
  | '+' :: rest => if digitGroup rest then some (digitsToNat (stripUnderscores rest)) else Option.none
  | '-' :: rest => if digitGroup rest then some (-(digitsToNat (stripUnderscores rest) : Int)) else Option.none
  | _ => if digitGroup cs then some (digitsToNat (stripUnderscores cs)) else Option.none

/-- Python `int(v)` within the universe: ints and bools pass, parsable
strings parse (`ValueError` otherwise), everything else raises
`TypeError`.  (Floats, whose `int()` can also raise OverflowError, are
outside the universe.) -/
def intConv : Val → Except PyErr Int
  | .int n => .ok n
  | .bool b => .ok (if b then 1 else 0)
  | .str s =>
      match parseIntPy s with
      | some n => .ok n
      | Option.none => .error .valueError
  | _ => .error .typeError

/-- Python `str(v)` for the scalar values the claims reach.  CPython
renders containers and objects via repr (address-dependent for plain
objects); no claim depends on that text, so containers map to fixed
placeholders. -/
def pyStr : Val → String
  | .none => "None"
  | .int n => toString n
  | .bool b => if b then "True" else "False"
  | .str s => s
  | .dict _ => "<dict>"
  | .obj _ => "<object>"
  | .list _ => "<list>"

/-! ## SessionEventTranslator (server/apps/chat/translator.py) -/

/-- Per-turn state of `SessionEventTranslator` (`__init__` / `reset`).
The block map is kept in insertion order, as a CPython dict is. -/
structure TranslatorState where
  cycle_count : Int
  block_map : List (String × Int)
  local_index_counter : Int
  pending_delegates : List Val
deriving Repr

/-- `SessionEventTranslator.__init__`. -/
def initTranslator : TranslatorState :=
  { cycle_count := 0, block_map := [], local_index_counter := 0, pending_delegates := [] }

/-- `SessionEventTranslator.reset` — clear per-turn state on prompt_complete. -/
def reset (_st : TranslatorState) : TranslatorState := initTranslator

/-- The composite key string of `get_local_index`:
Python `f"{self._cycle_count}-{server_index}"`. -/
def blockKey (cycle : Int) (server_index : Int) : String :=
  toString cycle ++ "-" ++ toString server_index

/-- `SessionEventTranslator.get_local_index`: map `(cycle, server_index)`
to a stable local index with `max(server_index, counter)`, advancing the
counter past the assigned index. -/
def get_local_index (st : TranslatorState) (server_index : Int) : Int × TranslatorState :=
  let key := blockKey st.cycle_count server_index
  match listLookup st.block_map key with
  | some v => (v, st)
  | Option.none =>
      let localIdx := max server_index st.local_index_counter
      (localIdx,
        { st with
            block_map := st.block_map ++ [(key, localIdx)],
            local_index_counter := localIdx + 1 })

/-- `SessionEventTranslator.lineage_fields`: session_id / parent_id when
present and non-empty strings. -/
def lineage_fields (data : Payload) : Payload :=
  let out : Payload := []
  let out :=
    match getVal data "session_id" with
    | .str s => if s ≠ "" then out ++ [("session_id", Val.str s)] else out
    | _ => out
  match getVal data "parent_id" with
  | .str s => if s ≠ "" then out ++ [("parent_id", Val.str s)] else out
  | _ => out

/-- Raw index extraction of `SessionEventTranslator.server_index`:
top-level `block_index`/`index`, else the dict- or object-shaped
`block`, else the literal `0` default. -/
def server_index_raw (data : Payload) : Val :=
  let raw := getValD data "block_index" (getVal data "index")
  let raw :=
    match raw with
    | .none =>
        let block := getVal data "block"
        (match block with
         | .dict entries => getValD entries "block_index" (getVal entries "index")
         | .none => Val.none
         | _ => attrGetD block "block_index" (attrGetD block "index" Val.none))
    | _ => raw
  match raw with | .none => Val.int 0 | _ => raw

/-- Body of `SessionEventTranslator.server_index` up to the final
`int(raw)` conversion, which in Python sits inside a
`try/except (TypeError, ValueError)`.  Errors escaping this function are
exactly those the `except` clause does not catch.  (`isinstance(raw, int)`
is true of Python bools, which are the ints 0 and 1.) -/
def server_index_exc (data : Payload) : Except PyErr Int :=
  match server_index_raw data with
  | .int n => .ok n
  | .bool b => .ok (if b then 1 else 0)
  | other => intConv other

/-- `SessionEventTranslator.server_index` with the
`except (TypeError, ValueError): return 0` clause applied. -/
def server_index_run (data : Payload) : Except PyErr Int :=
  match server_index_exc data with
  | .ok n => .ok n
  | .error .typeError => .ok 0
  | .error .valueError => .ok 0
  | .error e => .error e

/-- `SessionEventTranslator.server_index` as the total function it is
(theorem `server_index_total` shows the error branch is unreachable). -/
def server_index (data : Payload) : Int :=
  match server_index_run data with
  | .ok n => n
  | .error _ => 0

/-- `SessionEventTranslator.block_text`: extract text from content block
payloads (new and legacy shapes). -/
def block_text (data : Payload) : String :=
  let block := getVal data "block"
  let fromBlock : Option String :=
    match block with
    | .dict entries =>
        (match getVal entries "text" with
         | .str v => some v
         | _ =>
           match getVal entries "thinking" with
           | .str v => some v
           | _ =>
             match getVal entries "content" with
             | .str v => some v
             | _ =>
               match getVal entries "delta" with
               | .str v => some v
               | _ => Option.none)
    | .none => Option.none
    | _ =>
        (match attrGetD block "text" Val.none with
         | .str v => some v
         | _ =>
           match attrGetD block "thinking" Val.none with
           | .str v => some v
           | _ =>
             match attrGetD block "content" Val.none with
             | .str v => some v
             | _ => Option.none)
  match fromBlock with
  | some v => v
  | Option.none =>
      match getValD data "text" (Val.str "") with
      | .str t => t
      | _ =>
          match getVal data "content" with
          | .str c => c
          | _ => ""

/-- Python `a + b` for the value universe (ints and bools add as ints,
strings and lists concatenate, anything else raises TypeError). -/
def pyAdd : Val → Val → Except PyErr Val
  | .int a, .int b => .ok (.int (a + b))
  | .int a, .bool b => .ok (.int (a + if b then 1 else 0))
  | .bool a, .int b => .ok (.int ((if a then 1 else 0) + b))
  | .bool a, .bool b => .ok (.int ((if a then 1 else 0) + if b then 1 else 0))
  | .str a, .str b => .ok (.str (a ++ b))
  | .list a, .list b => .ok (.list (a ++ b))
  | _, _ => .error .typeError

/-- `SessionEventTranslator.translate`: kernel event to wire message.
Returns the raised exception or the optional message (`none` = silently
skipped event), together with the state after the call — mutations made
before a raise stick, as they do in Python. -/
def translate (st : TranslatorState) (event_name : String) (data : Payload) :
    Except PyErr (Option Payload) × TranslatorState :=
  match event_name with
  | "content_block:start" =>
      let (idx, st2) := get_local_index st (server_index data)
      (.ok (some [("type", Val.str "content_start"),
                  ("block_type", getValD data "block_type" (Val.str "text")),
                  ("index", Val.int idx)]), st2)
  | "content_block:delta" =>
      let delta := getVal data "delta"
      let delta :=
        match delta with
        | .dict entries =>
            pyOr (getVal entries "text") (pyOr (getVal entries "thinking") (Val.str ""))
        | _ => delta
      let delta := match delta with | .str _ => delta | _ => getValD data "text" (Val.str "")
      let deltaS := match delta with | .str s => s | _ => ""
      let (idx, st2) := get_local_index st (server_index data)
      (.ok (some [("type", Val.str "content_delta"),
                  ("delta", Val.str deltaS),
                  ("index", Val.int idx)]), st2)
  | "content_block:end" =>
      let (idx, st2) := get_local_index st (server_index data)
      (.ok (some [("type", Val.str "content_end"),
                  ("index", Val.int idx),
                  ("text", Val.str (block_text data))]), st2)
  | "thinking:delta" =>
      (.ok (some [("type", Val.str "thinking_delta"),
                  ("delta", getValD data "delta" (Val.str ""))]), st)
  | "thinking:final" =>
      (.ok (some [("type", Val.str "thinking_final"),
                  ("content", getValD data "content" (Val.str ""))]), st)
  | "tool:pre" =>
      let tool_name := getValD data "tool_name" (Val.str "")
      let tool_call_id := getValD data "tool_call_id" (Val.str "")
      let isDelegate :=
        match tool_name with
        | .str s => s == "delegate" || s == "task"
        | _ => false
      let st2 :=
        if isDelegate then
          { st with pending_delegates := st.pending_delegates ++ [tool_call_id] }
        else st
      (.ok (some ([("type", Val.str "tool_call"),
                   ("tool_call_id", tool_call_id),
                   ("tool_name", tool_name),
                   ("arguments", getValD data "tool_input" (Val.dict []))]
                  ++ lineage_fields data)), st2)
  | "tool:post" =>
      let result := getVal data "result"
      match result with
      | .none =>
          -- result is None: treated as success, no output, no error
          (.ok (some ([("type", Val.str "tool_result"),
                       ("tool_call_id", getValD data "tool_call_id" (Val.str "")),
                       ("success", Val.bool true),
                       ("output", Val.none),
                       ("error", Val.none)]
                      ++ lineage_fields data)),
           { st with cycle_count := st.cycle_count + 1 })
      | _ =>
          -- `result.output` is attribute access: it raises AttributeError on a
          -- dict-shaped result, before cycle_count is incremented
          match attrGet result "output" with
          | .error e => (.error e, st)
          | .ok out =>
              let output := match out with | .none => Val.none | _ => Val.str (pyStr out)
              let error := if hasAttr result "error" then attrGetD result "error" Val.none else Val.none
              let success := match error with | .none => true | _ => false
              (.ok (some ([("type", Val.str "tool_result"),
                           ("tool_call_id", getValD data "tool_call_id" (Val.str "")),
                           ("success", Val.bool success),
                           ("output", output),
                           ("error", error)]
                          ++ lineage_fields data)),
               { st with cycle_count := st.cycle_count + 1 })
  | "tool:error" =>
      (.ok (some ([("type", Val.str "tool_result"),
                   ("tool_call_id", getValD data "tool_call_id" (Val.str "")),
                   ("success", Val.bool false),
                   ("output", Val.none),
                   ("error", getValD data "error" (Val.str "Unknown error"))]
                  ++ lineage_fields data)), st)
  | "delegate:agent_spawned" =>
      let (parent_tool_call_id, st2) :=
        match st.pending_delegates with
        | [] => (Val.none, st)
        | p :: rest => (p, { st with pending_delegates := rest })
      (.ok (some [("type", Val.str "session_fork"),
                  ("parent_id", getValD data "parent_id" (Val.str "")),
                  ("child_id", getValD data "child_id" (Val.str "")),
                  ("agent", getValD data "agent" (Val.str "")),
                  ("parent_tool_call_id", parent_tool_call_id)]), st2)
  | "orchestrator:complete" =>
      (.ok (some [("type", Val.str "prompt_complete"),
                  ("turn_count", getValD data "turn_count" (Val.int 0))]), reset st)
  | "cancel:completed" =>
      (.ok (some [("type", Val.str "execution_cancelled")]), st)
  | "cancel:requested" =>
      (.ok (some [("type", Val.str "cancel_acknowledged")]), st)
  | "display_message" =>
      (.ok (some [("type", Val.str "display_message"),
                  ("message", getValD data "message" (Val.str "")),
                  ("level", getValD data "level" (Val.str "info")),
                  ("source", getValD data "source" (Val.str "system"))]), st)
  | "approval_request" =>
      (.ok (some [("type", Val.str "approval_request"),
                  ("id", getValD data "request_id" (Val.str "")),
                  ("prompt", getValD data "prompt" (Val.str "")),
                  ("options", getValD data "options" (Val.list [])),
                  ("timeout", getValD data "timeout" (Val.int 300)),
                  ("default", getValD data "default" (Val.str "deny"))]), st)
  | "llm:response" | "provider:post" =>
      let usage := pyOr (getVal data "usage") (Val.dict [])
      match usage with
      | .dict u =>
          let input_t := getValD u "input_tokens" (Val.int 0)
          let output_t := getValD u "output_tokens" (Val.int 0)
          -- the fallback for total_tokens is the eagerly computed default
          -- argument input_t + output_t, which can itself raise TypeError
          (match pyAdd input_t output_t with
           | .error e => (.error e, st)
           | .ok totDefault =>
               (.ok (some [("type", Val.str "token_usage"),
                           ("input_tokens", input_t),
                           ("output_tokens", output_t),
                           ("total_tokens", getValD u "total_tokens" totDefault),
                           ("cache_read_tokens", getVal u "cache_read_tokens"),
                           ("cache_write_tokens", getVal u "cache_write_tokens"),
                           ("model", getVal data "model"),
                           ("provider", getVal data "provider"),
                           ("duration_ms", getVal data "duration_ms")]), st))
      | _ => (.error .attributeError, st)
  | _ => (.ok Option.none, st)

/-! ## ApprovalSystem (server/protocol_adapters.py)

`_pending : dict[str, asyncio.Event]` is embedded as an association list
request_id to the event's `is_set()` flag; `_responses : dict[str, str]`
as an association list.  The blocking `request_approval` is split at its
await points: an entry phase (create the pending entry, invoke the
notification callback), then one of two completion phases — resolved by
a `handle_response`, or timed out. -/

structure ApprovalState where
  pending : List (String × Bool)
  responses : List (String × String)
deriving Repr

/-- `ApprovalSystem.__init__`: empty pending and response maps. -/
def initApproval : ApprovalState := { pending := [], responses := [] }

/-- `ApprovalSystem.handle_response`: unblock a waiting request.
Returns True only if the id is pending and its event not yet set;
first-write-wins. -/
def handle_response (st : ApprovalState) (request_id choice : String) :
    Bool × ApprovalState :=
  match listLookup st.pending request_id with
  | Option.none => (false, st)
  | some isSet =>
      if isSet then (false, st)
      else
        (true,
         { pending := setKey st.pending request_id true,
           responses := setKey st.responses request_id choice })

/-- What the entry phase of `request_approval` produces: an immediate
choice (auto-approve) or a blocked wait on the fresh request id. -/
inductive EntryResult where
  | immediate (choice : String) : EntryResult
  | blocked (request_id : String) : EntryResult
deriving Repr

structure EntryOutcome where
  result : EntryResult
  st : ApprovalState
  callback_invoked : Bool
deriving Repr

/-- Entry phase of `ApprovalSystem.request_approval`.  In auto-approve
mode it returns `options[0]` (or "allow" on an empty list) before
touching any state or callback.  In interactive mode the fresh uuid is
modelled by the `request_id` parameter; a new unset event is stored and
the notification callback (when configured) is invoked. -/
def request_approval_entry (auto_approve has_callback : Bool)
    (st : ApprovalState) (options : List String) (request_id : String) :
    EntryOutcome :=
  if auto_approve then
    { result := .immediate (match options with | o :: _ => o | [] => "allow"),
      st := st,
      callback_invoked := false }
  else
    { result := .blocked request_id,
      st := { st with pending := setKey st.pending request_id false },
      callback_invoked := has_callback }

/-- Completion of `request_approval` when the awaited event was set by a
`handle_response`: return `self._responses.pop(request_id, default)`;
the `finally` block then pops the pending entry (and pops the already
removed response entry again, a no-op). -/
def request_approval_resolved (st : ApprovalState) (request_id dflt : String) :
    String × ApprovalState :=
  let choice :=
    match listLookup st.responses request_id with
    | some c => c
    | Option.none => dflt
  (choice,
   { pending := delKey st.pending request_id,
     responses := delKey st.responses request_id })

/-- Completion of `request_approval` on timeout: `except TimeoutError`
returns the default, and the `finally` block discards the pending entry. -/
def request_approval_timeout (st : ApprovalState) (request_id dflt : String) :
    String × ApprovalState :=
  (dflt,
   { pending := delKey st.pending request_id,
     responses := delKey st.responses request_id })

/-! ## ChatConnection (server/apps/chat/connection.py) -/

/-- An execution task, reduced to what `_dispatch` inspects: `done()`. -/
structure ExecTask where
  done : Bool
deriving Repr

/-- Connection state relevant to the prompt dispatch guard. -/
structure ConnState where
  active_execution : Option ExecTask
deriving Repr

/-- What the prompt branch of `_dispatch` did. -/
inductive PromptAction where
  | rejected (sent : Payload) : PromptAction
  | started : PromptAction
deriving Repr

/-- The `case "prompt"` branch of `ChatConnection._dispatch`: if an
active execution task exists and is not done, send an execution_error
and return without starting anything; otherwise create the execution
task and record it as active. -/
def dispatch_prompt (st : ConnState) : PromptAction × ConnState :=
  let busy :=
    match st.active_execution with
    | some t => !t.done
    | Option.none => false
  if busy then
    (.rejected [("type", Val.str "execution_error"),
                ("error", Val.str "Execution in progress. Send cancel first.")],
     st)
  else
    (.started, { st with active_execution := some { done := false } })

/-! ## Connection fan-out loop (`_event_fanout_loop`) -/

/-- Per-connection fan-out state: the translator plus the set of local
block indices that received at least one non-empty delta. -/
structure FanoutState where
  translator : TranslatorState
  seen_deltas : List Int
deriving Repr

/-- Python `set.add`. -/
def setAdd (l : List Int) (x : Int) : List Int :=
  if x ∈ l then l else l ++ [x]

/-- Python `set.discard`. -/
def setDiscard (l : List Int) (x : Int) : List Int :=
  l.filter (fun y => y ≠ x)

/-- `for i in range(0, len(text), chunk_size)` slicing with the source's
`chunk_size = 12`, structured on a fuel bound (the loop runs at most
`len(text)` iterations); fuel exhaustion is unreachable for
`fuel ≥ length`. -/
def chunkCharsAux : Nat → List Char → List (List Char)
  | _, [] => []
  | 0, _ => []
  | fuel + 1, cs => cs.take 12 :: chunkCharsAux fuel (cs.drop 12)

/-- The chunk slices of the synthetic-streaming loop. -/
def chunkChars (cs : List Char) : List (List Char) :=
  chunkCharsAux cs.length cs

/-- The synthesis loop body: translate each chunk as a
`content_block:delta` and send the result; an exception would abort the
loop (flag `false`; unreachable for this event, as proved later). -/
def synthChunks (tr : TranslatorState) (serverIdx : Int) :
    List String → List Payload × TranslatorState × Bool
  | [] => ([], tr, true)
  | c :: rest =>
      let out := translate tr "content_block:delta"
        [("delta", Val.str c), ("block_index", Val.int serverIdx)]
      match out.1 with
      | .ok (some m) =>
          let (ms, tr3, ok) := synthChunks out.2 serverIdx rest
          (m :: ms, tr3, ok)
      | .ok Option.none =>
          synthChunks out.2 serverIdx rest
      | .error _ => ([], out.2, false)

/-- One iteration of `ChatConnection._event_fanout_loop` for a dequeued
`(event_name, data)`: delta seen-tracking, synthetic streaming on a
`content_block:end` with text but no observed deltas, the real
translation and send, and the seen-set reset on `orchestrator:complete`.
Returns the messages sent to the WebSocket, in order.  An exception
raised mid-body is caught by the loop's `except Exception` handler:
already sent messages and already applied state mutations stick, the
rest of the body is skipped. -/
def fanout_step (st : FanoutState) (event_name : String) (data : Payload) :
    List Payload × FanoutState :=
  -- Track which local indices received non-empty deltas
  let st1 : FanoutState :=
    if event_name = "content_block:delta" then
      let rawDelta := getValD data "delta" (Val.str "")
      let rawDelta :=
        match rawDelta with
        | .dict entries =>
            pyOr (getVal entries "text") (pyOr (getVal entries "thinking") (Val.str ""))
        | _ => rawDelta
      match rawDelta with
      | .str s =>
          if s ≠ "" then
            let (idx, tr2) := get_local_index st.translator (server_index data)
            { translator := tr2, seen_deltas := setAdd st.seen_deltas idx }
          else st
      | _ => st
    else st
  -- Synthetic streaming before a content_block:end with unseen text
  let step2 : List Payload × FanoutState × Bool :=
    if event_name = "content_block:end" then
      let (localIdx, tr2) := get_local_index st1.translator (server_index data)
      let text := block_text data
      if text ≠ "" ∧ localIdx ∉ st1.seen_deltas then
        let pieces := (chunkChars text.toList).map (fun cs => String.mk cs)
        let (ms, tr3, ok) := synthChunks tr2 (server_index data) pieces
        if ok then
          (ms, { translator := tr3, seen_deltas := setDiscard st1.seen_deltas localIdx }, true)
        else
          (ms, { translator := tr3, seen_deltas := st1.seen_deltas }, false)
      else
        ([], { translator := tr2, seen_deltas := setDiscard st1.seen_deltas localIdx }, true)
    else ([], st1, true)
  let sentPre := step2.1
  let st2 := step2.2.1
  if step2.2.2 then
    let out := translate st2.translator event_name data
    let st3 : FanoutState := { st2 with translator := out.2 }
    match out.1 with
    | .ok (some m) =>
        let st4 := if event_name = "orchestrator:complete"
                   then { st3 with seen_deltas := [] } else st3
        (sentPre ++ [m], st4)
    | .ok Option.none =>
        let st4 := if event_name = "orchestrator:complete"
                   then { st3 with seen_deltas := [] } else st3
        (sentPre, st4)
    | .error _ => (sentPre, st3)
  else (sentPre, st2)

/-! ## Association-list lemmas (dict semantics) -/

theorem listLookup_setKey_self {α : Type} (l : List (String × α)) (k : String) (v : α) :
    listLookup (setKey l k v) k = some v := by
  induction l with
  | nil => simp [setKey, listLookup]
  | cons p rest ih =>
      obtain ⟨k2, w⟩ := p
      by_cases h : k2 = k
      · simp [setKey, h, listLookup]
      · simp [setKey, h, listLookup, ih]

theorem listLookup_delKey_self {α : Type} (l : List (String × α)) (k : String) :
    listLookup (delKey l k) k = Option.none := by
  induction l with
  | nil => rfl
  | cons p rest ih =>
      obtain ⟨k2, w⟩ := p
      by_cases h : k2 = k
      · simp [delKey, h, ih]
      · simp [delKey, h, listLookup, ih]

theorem listLookup_append {α : Type} (l1 l2 : List (String × α)) (k : String) :
    listLookup (l1 ++ l2) k
      = (match listLookup l1 k with
         | some v => some v
         | Option.none => listLookup l2 k) := by
  induction l1 with
  | nil => simp [listLookup]
  | cons p rest ih =>
      obtain ⟨k2, w⟩ := p
      by_cases h : k2 = k
      · simp [listLookup, h]
      · simp [listLookup, h, ih]

/-! ## C2 — handle_response succeeds at most once -/

/-- C2: for every request id, `handle_response` succeeds at most once.
For a pending, unresolved id the first call returns true, records the
choice and marks the event set; any further call for that id returns
false, as does a call for an unknown id or for an id resolved by
timeout; and the blocked `request_approval` waiter for that id returns
exactly the choice recorded by the single successful call. -/
theorem handle_response_first_write_wins
    (st : ApprovalState) (request_id choice choice2 dflt : String) :
    (listLookup st.pending request_id = Option.none →
        handle_response st request_id choice = (false, st))
    ∧ (listLookup st.pending request_id = some false →
        (handle_response st request_id choice).1 = true
        ∧ listLookup (handle_response st request_id choice).2.responses request_id
            = some choice
        ∧ listLookup (handle_response st request_id choice).2.pending request_id
            = some true)
    ∧ ((handle_response st request_id choice).1 = true →
        (handle_response (handle_response st request_id choice).2 request_id choice2).1
          = false)
    ∧ (handle_response (request_approval_timeout st request_id dflt).2 request_id choice).1
        = false
    ∧ ((handle_response st request_id choice).1 = true →
        (request_approval_resolved (handle_response st request_id choice).2
            request_id dflt).1 = choice) := by
  refine ⟨?_, ?_, ?_, ?_, ?_⟩
  · intro h
    simp [handle_response, h]
  · intro h
    refine ⟨?_, ?_, ?_⟩
    · simp [handle_response, h]
    · simp [handle_response, h, listLookup_setKey_self]
    · simp [handle_response, h, listLookup_setKey_self]
  · intro h
    unfold handle_response at h ⊢
    rcases hl : listLookup st.pending request_id with _ | isSet
    · simp [hl] at h
    · rcases isSet with _ | _
      · simp [hl, listLookup_setKey_self]
      · simp [hl] at h
  · unfold handle_response
    simp [request_approval_timeout, listLookup_delKey_self]
  · intro h
    unfold handle_response at h ⊢
    rcases hl : listLookup st.pending request_id with _ | isSet
    · simp [hl] at h
    · rcases isSet with _ | _
      · simp [hl, request_approval_resolved, listLookup_setKey_self]
      · simp [hl] at h

/-- C2 witness: a concrete run — the id is pending and unresolved, the
first call succeeds and records the choice, the second call fails, and
the waiter reads back the recorded choice. -/
theorem handle_response_first_write_wins_witness :
    ((handle_response { pending := [("req-1", false)], responses := [] } "req-1" "deny").1
        = true)
    ∧ ((handle_response
          (handle_response { pending := [("req-1", false)], responses := [] } "req-1" "deny").2
          "req-1" "allow").1 = false)
    ∧ ((request_approval_resolved
          (handle_response { pending := [("req-1", false)], responses := [] } "req-1" "deny").2
          "req-1" "fallback").1 = "deny") :=
  ⟨(handle_response_first_write_wins
      { pending := [("req-1", false)], responses := [] } "req-1" "deny" "allow" "fallback").2.1
      (by rfl) |>.1,
   (handle_response_first_write_wins
      { pending := [("req-1", false)], responses := [] } "req-1" "deny" "allow" "fallback").2.2.1
      (by rfl),
   (handle_response_first_write_wins
      { pending := [("req-1", false)], responses := [] } "req-1" "deny" "allow" "fallback").2.2.2.2
      (by rfl)⟩

/-! ## C6 — approval timeout returns the default -/

/-- C6: when no response arrives within the timeout, `request_approval`
returns the caller-supplied default as a normal value, the id is removed
from the pending set, and a later `handle_response` for it reports
failure. -/
theorem approval_timeout_returns_default
    (st : ApprovalState) (request_id dflt choice : String) :
    (request_approval_timeout st request_id dflt).1 = dflt
    ∧ listLookup (request_approval_timeout st request_id dflt).2.pending request_id
        = Option.none
    ∧ (handle_response (request_approval_timeout st request_id dflt).2 request_id choice).1
        = false := by
  refine ⟨rfl, ?_, ?_⟩
  · simp [request_approval_timeout, listLookup_delKey_self]
  · simp [handle_response, request_approval_timeout, listLookup_delKey_self]

/-! ## C9 — auto-approve mode is pure -/

/-- C9: in auto-approve mode `request_approval` immediately returns the
first option (or "allow" on an empty option list), leaves the approval
state untouched, and never invokes the notification callback. -/
theorem auto_approve_returns_immediately
    (has_callback : Bool) (st : ApprovalState) (options : List String)
    (request_id : String) :
    (request_approval_entry true has_callback st options request_id).result
        = EntryResult.immediate (options.headD "allow")
    ∧ (request_approval_entry true has_callback st options request_id).st = st
    ∧ (request_approval_entry true has_callback st options request_id).callback_invoked
        = false := by
  refine ⟨?_, rfl, rfl⟩
  cases options <;> rfl

/-! ## C10 — a prompt during an active execution is rejected -/

/-- C10: a prompt received while the connection's execution task is
still running makes `_dispatch` send an execution_error telling the
client to cancel first, and start no second execution (the connection
state is unchanged). -/
theorem prompt_rejected_while_running (st : ConnState) (t : ExecTask)
    (h : st.active_execution = some t) (hd : t.done = false) :
    dispatch_prompt st
      = (PromptAction.rejected
           [("type", Val.str "execution_error"),
            ("error", Val.str "Execution in progress. Send cancel first.")],
         st) := by
  unfold dispatch_prompt
  rw [h]
  simp [hd]

/-- C10 witness: concrete busy connection. -/
theorem prompt_rejected_while_running_witness :
    dispatch_prompt { active_execution := some { done := false } }
      = (PromptAction.rejected
           [("type", Val.str "execution_error"),
            ("error", Val.str "Execution in progress. Send cancel first.")],
         { active_execution := some { done := false } }) :=
  prompt_rejected_while_running
    { active_execution := some { done := false } } { done := false } rfl rfl

/-! ## C7 — delegate correlation is FIFO -/

/-- C7: two delegation tool calls with ids `a` then `b` (tool_name
"delegate" or "task") push onto the delegate queue in order; the first
sub-session-spawned event then correlates to `a`, the second to `b`;
and a spawned event translated on an empty queue carries
`parent_tool_call_id = None`. -/
theorem delegate_fifo
    (st : TranslatorState) (hq : st.pending_delegates = [])
    (dataA dataB dataS1 dataS2 dataE : Payload) (a b : Val)
    (hAname : getValD dataA "tool_name" (Val.str "") = Val.str "delegate"
              ∨ getValD dataA "tool_name" (Val.str "") = Val.str "task")
    (hBname : getValD dataB "tool_name" (Val.str "") = Val.str "delegate"
              ∨ getValD dataB "tool_name" (Val.str "") = Val.str "task")
    (hAid : getValD dataA "tool_call_id" (Val.str "") = a)
    (hBid : getValD dataB "tool_call_id" (Val.str "") = b) :
    (translate (translate st "tool:pre" dataA).2 "tool:pre" dataB).2.pending_delegates
        = [a, b]
    ∧ (translate (translate (translate st "tool:pre" dataA).2 "tool:pre" dataB).2
          "delegate:agent_spawned" dataS1).1
        = .ok (some [("type", Val.str "session_fork"),
                     ("parent_id", getValD dataS1 "parent_id" (Val.str "")),
                     ("child_id", getValD dataS1 "child_id" (Val.str "")),
                     ("agent", getValD dataS1 "agent" (Val.str "")),
                     ("parent_tool_call_id", a)])
    ∧ (translate (translate (translate (translate st "tool:pre" dataA).2 "tool:pre" dataB).2
          "delegate:agent_spawned" dataS1).2 "delegate:agent_spawned" dataS2).1
        = .ok (some [("type", Val.str "session_fork"),
                     ("parent_id", getValD dataS2 "parent_id" (Val.str "")),
                     ("child_id", getValD dataS2 "child_id" (Val.str "")),
                     ("agent", getValD dataS2 "agent" (Val.str "")),
                     ("parent_tool_call_id", b)])
    ∧ (translate st "delegate:agent_spawned" dataE).1
        = .ok (some [("type", Val.str "session_fork"),
                     ("parent_id", getValD dataE "parent_id" (Val.str "")),
                     ("child_id", getValD dataE "child_id" (Val.str "")),
                     ("agent", getValD dataE "agent" (Val.str "")),
                     ("parent_tool_call_id", Val.none)]) := by
  have h1 : (translate st "tool:pre" dataA).2
      = { st with pending_delegates := [a] } := by
    rcases hAname with h | h <;> simp [translate, h, hAid, hq]
  have h2 : (translate (translate st "tool:pre" dataA).2 "tool:pre" dataB).2
      = { st with pending_delegates := [a, b] } := by
    rw [h1]
    rcases hBname with h | h <;> simp [translate, h, hBid]
  have h3 : (translate (translate (translate st "tool:pre" dataA).2 "tool:pre" dataB).2
        "delegate:agent_spawned" dataS1).2
      = { st with pending_delegates := [b] } := by
    rw [h2]; simp [translate]
  refine ⟨?_, ?_, ?_, ?_⟩
  · rw [h2]
  · rw [h2]; simp [translate]
  · rw [h3]; simp [translate]
  · simp [translate, hq]

/-- C7 witness: concrete delegations A then B from the reset state,
spawned events correlating to A then B, and the empty-queue case. -/
theorem delegate_fifo_witness :
    (translate (translate initTranslator "tool:pre"
        [("tool_call_id", Val.str "A"), ("tool_name", Val.str "delegate")]).2
        "tool:pre"
        [("tool_call_id", Val.str "B"), ("tool_name", Val.str "task")]).2.pending_delegates
      = [Val.str "A", Val.str "B"]
    ∧ (translate initTranslator "delegate:agent_spawned" []).1
      = .ok (some [("type", Val.str "session_fork"),
                   ("parent_id", Val.str ""),
                   ("child_id", Val.str ""),
                   ("agent", Val.str ""),
                   ("parent_tool_call_id", Val.none)]) := by
  have h := delegate_fifo initTranslator rfl
    [("tool_call_id", Val.str "A"), ("tool_name", Val.str "delegate")]
    [("tool_call_id", Val.str "B"), ("tool_name", Val.str "task")]
    [] [] [] (Val.str "A") (Val.str "B")
    (Or.inl rfl) (Or.inr rfl) rfl rfl
  exact ⟨h.1, h.2.2.2⟩

/-! ## C4 — tool:post result handling

The repository's own regression tests
(`test_tool_post_dict_shape_success` / `_error`) require dict-shaped
results to translate to a `tool_result`; the code reads
`result.output`, an attribute access that raises AttributeError on a
dict — before `cycle_count` is incremented. -/

/-- C4 (code bug evaluated): a dict-shaped result makes `tool:post`
raise AttributeError with the state unchanged (no `cycle_count`
increment), while the same payload with an object-shaped result yields
the `tool_result` message the tests expect and increments
`cycle_count`. -/
theorem tool_post_dict_result_raises :
    translate initTranslator "tool:post"
        [("tool_call_id", Val.str "tc-001"),
         ("result", Val.dict [("output", Val.str "file contents"), ("error", Val.none)])]
      = (.error .attributeError, initTranslator)
    ∧ translate initTranslator "tool:post"
        [("tool_call_id", Val.str "tc-001"),
         ("result", Val.obj [("output", Val.str "file contents"), ("error", Val.none)])]
      = (.ok (some [("type", Val.str "tool_result"),
                    ("tool_call_id", Val.str "tc-001"),
                    ("success", Val.bool true),
                    ("output", Val.str "file contents"),
                    ("error", Val.none)]),
         { initTranslator with cycle_count := 1 }) := by
  exact ⟨rfl, rfl⟩

/-! ## C8 — server_index is total -/

/-- `int()` inside the universe fails only with TypeError or ValueError,
exactly the exceptions the `except` clause of `server_index` catches. -/
theorem intConv_cases (v : Val) :
    (∃ n, intConv v = .ok n)
    ∨ intConv v = .error .typeError
    ∨ intConv v = .error .valueError := by
  cases v
  case str s =>
    rcases h : parseIntPy s with _ | n
    · right; right; simp [intConv, h]
    · left; exact ⟨n, by simp [intConv, h]⟩
  all_goals simp [intConv]

/-- Any error escaping the conversion body is TypeError or ValueError. -/
theorem server_index_exc_err (data : Payload) (e : PyErr)
    (h : server_index_exc data = .error e) :
    e = PyErr.typeError ∨ e = PyErr.valueError := by
  unfold server_index_exc at h
  rcases hr : server_index_raw data with _ | n | b | s | l | l | l <;> rw [hr] at h
  case int => simp at h
  case bool => simp at h
  case str =>
    rcases hp : parseIntPy s with _ | n
    · simp [intConv, hp] at h
      exact Or.inr h.symm
    · simp [intConv, hp] at h
  all_goals
    simp [intConv] at h
  all_goals
    exact Or.inl h.symm

/-- C8: `server_index` is total — the guarded run always produces an
int; an error in the conversion body is one the `except` clause
catches, making the result 0; and a payload with no index anywhere
yields 0. -/
theorem server_index_total (data : Payload) :
    (∃ n, server_index_run data = .ok n ∧ server_index data = n)
    ∧ (∀ e, server_index_exc data = .error e → server_index data = 0)
    ∧ (listLookup data "block_index" = Option.none →
       listLookup data "index" = Option.none →
       listLookup data "block" = Option.none →
       server_index data = 0) := by
  refine ⟨?_, ?_, ?_⟩
  · rcases hx : server_index_exc data with e | n
    · refine ⟨0, ?_⟩
      rcases server_index_exc_err data e hx with he | he <;>
        simp [server_index_run, server_index, hx, he]
    · exact ⟨n, by simp [server_index_run, server_index, hx]⟩
  · intro e hx
    rcases server_index_exc_err data e hx with he | he <;>
      simp [server_index, server_index_run, hx, he]
  · intro h1 h2 h3
    simp [server_index, server_index_run, server_index_exc, server_index_raw,
          getVal, getValD, h1, h2, h3]

/-- C8 witness: an unparsable string index is caught and yields 0, and
a payload with no index at all yields 0. -/
theorem server_index_total_witness :
    server_index [("index", Val.str "zz")] = 0
    ∧ server_index [("other", Val.int 3)] = 0 :=
  ⟨(server_index_total [("index", Val.str "zz")]).2.1 PyErr.valueError rfl,
   (server_index_total [("other", Val.int 3)]).2.2 rfl rfl rfl⟩

/-! ## C5 — lineage fields are merged into tool events only -/

/-- C5 counterexample: a content event whose payload carries non-empty
`session_id` and `parent_id` translates to a message that contains
neither — refuting pass-through on content events. -/
theorem content_lineage_not_passed :
    (translate initTranslator "content_block:start"
        [("session_id", Val.str "sess-child"), ("parent_id", Val.str "sess-parent"),
         ("block_index", Val.int 0)]).1
      = .ok (some [("type", Val.str "content_start"),
                   ("block_type", Val.str "text"),
                   ("index", Val.int 0)])
    ∧ listLookup [("type", Val.str "content_start"),
                  ("block_type", Val.str "text"),
                  ("index", Val.int 0)] "session_id" = Option.none
    ∧ listLookup [("type", Val.str "content_start"),
                  ("block_type", Val.str "text"),
                  ("index", Val.int 0)] "parent_id" = Option.none :=
  ⟨rfl, rfl, rfl⟩

/-- Modelled from the spec: the lineage value the wire message should
carry for `key` — the payload's value when it is a non-empty string,
nothing when absent or empty. -/
def lineageExpected (data : Payload) (key : String) : Option Val :=
  match getVal data key with
  | .str s => if s ≠ "" then some (Val.str s) else Option.none
  | _ => Option.none

theorem listLookup_append_left_none {α : Type} (l1 l2 : List (String × α)) (k : String)
    (h : listLookup l1 k = Option.none) :
    listLookup (l1 ++ l2) k = listLookup l2 k := by
  rw [listLookup_append, h]

/-- `lineage_fields` computes exactly the expected lineage values. -/
theorem lineage_fields_lookup (data : Payload) :
    listLookup (lineage_fields data) "session_id" = lineageExpected data "session_id"
    ∧ listLookup (lineage_fields data) "parent_id" = lineageExpected data "parent_id" := by
  unfold lineage_fields lineageExpected
  rcases hs : getVal data "session_id" with _ | n | b | s | l | l | l <;>
    rcases hp : getVal data "parent_id" with _ | n2 | b2 | s2 | l2 | l2 | l2 <;>
      simp [listLookup] <;>
        first
        | (by_cases hse : s = "" <;> by_cases hpe : s2 = "" <;>
            simp [hse, hpe, listLookup])
        | (by_cases hse : s = "" <;> simp [hse, listLookup])
        | (by_cases hpe : s2 = "" <;> simp [hpe, listLookup])

/-- C5 (amended): the translator passes non-empty string lineage fields
through — and omits absent or empty ones — on tool events (`tool:pre`,
`tool:error`, and every `tool:post` that produces a message), while
content events never carry lineage fields. -/
theorem lineage_passed_on_tool_events_only (st : TranslatorState) (data : Payload) :
    (∀ m st2, translate st "tool:pre" data = (.ok (some m), st2) →
        listLookup m "session_id" = lineageExpected data "session_id"
        ∧ listLookup m "parent_id" = lineageExpected data "parent_id")
    ∧ (∀ m st2, translate st "tool:error" data = (.ok (some m), st2) →
        listLookup m "session_id" = lineageExpected data "session_id"
        ∧ listLookup m "parent_id" = lineageExpected data "parent_id")
    ∧ (∀ m st2, translate st "tool:post" data = (.ok (some m), st2) →
        listLookup m "session_id" = lineageExpected data "session_id"
        ∧ listLookup m "parent_id" = lineageExpected data "parent_id")
    ∧ (∀ ev m st2,
        (ev = "content_block:start" ∨ ev = "content_block:delta" ∨ ev = "content_block:end") →
        translate st ev data = (.ok (some m), st2) →
        listLookup m "session_id" = Option.none
        ∧ listLookup m "parent_id" = Option.none) := by
  refine ⟨?_, ?_, ?_, ?_⟩
  · intro m st2 h
    simp only [translate, Prod.mk.injEq, Except.ok.injEq, Option.some.injEq] at h
    rw [← h.1]
    constructor <;>
      rw [listLookup_append_left_none _ _ _ (by simp [listLookup])] <;>
        simp [lineage_fields_lookup]
  · intro m st2 h
    simp only [translate, Prod.mk.injEq, Except.ok.injEq, Option.some.injEq] at h
    rw [← h.1]
    constructor <;>
      rw [listLookup_append_left_none _ _ _ (by simp [listLookup])] <;>
        simp [lineage_fields_lookup]
  · intro m st2 h
    simp only [translate] at h
    rcases hres : getVal data "result" with _ | n | b | s | l | l | l <;> rw [hres] at h
    case none =>
      simp only [Prod.mk.injEq, Except.ok.injEq, Option.some.injEq] at h
      rw [← h.1]
      constructor <;>
        rw [listLookup_append_left_none _ _ _ (by simp [listLookup])] <;>
          simp [lineage_fields_lookup]
    all_goals
      rcases hout : attrGet _ "output" with e | out <;> rw [hout] at h
    all_goals
      first
      | (exfalso; revert h; simp; done)
      | (simp only [Prod.mk.injEq, Except.ok.injEq, Option.some.injEq] at h
         rw [← h.1]
         constructor <;> simp [listLookup, lineage_fields_lookup])
  · intro ev m st2 hev h
    rcases hev with hev | hev | hev <;> subst hev <;>
      simp only [translate, Prod.mk.injEq, Except.ok.injEq, Option.some.injEq] at h <;>
        rw [← h.1] <;> simp [listLookup]

/-- C5 witness: a tool_call carries the payload's concrete lineage
fields; a content_start from a payload with the same lineage carries
none. -/
theorem lineage_passed_on_tool_events_only_witness :
    listLookup [("type", Val.str "tool_call"),
                ("tool_call_id", Val.str "tc-2"),
                ("tool_name", Val.str "grep"),
                ("arguments", Val.dict []),
                ("session_id", Val.str "sess-child"),
                ("parent_id", Val.str "sess-parent")] "session_id"
      = some (Val.str "sess-child")
    ∧ listLookup [("type", Val.str "content_start"),
                  ("block_type", Val.str "text"),
                  ("index", Val.int 0)] "session_id" = Option.none :=
  ⟨(((lineage_passed_on_tool_events_only initTranslator
        [("tool_call_id", Val.str "tc-2"), ("tool_name", Val.str "grep"),
         ("session_id", Val.str "sess-child"), ("parent_id", Val.str "sess-parent")]).1
      _ initTranslator rfl).1).trans (by rfl),
   ((lineage_passed_on_tool_events_only initTranslator
        [("session_id", Val.str "sess-child"), ("parent_id", Val.str "sess-parent"),
         ("block_index", Val.int 0)]).2.2.2
      "content_block:start" _
      { cycle_count := 0, block_map := [("0-0", 0)],
        local_index_counter := 1, pending_delegates := [] }
      (Or.inl rfl) rfl).1⟩

/-! ## C1 — index stabilization is strictly monotone -/

/-- Unfolding equation for `get_local_index` on a fresh key. -/
theorem get_local_index_fresh (st : TranslatorState) (i : Int)
    (hfresh : listLookup st.block_map (blockKey st.cycle_count i) = Option.none) :
    get_local_index st i
      = (max i st.local_index_counter,
         { st with
             block_map :=
               st.block_map ++ [(blockKey st.cycle_count i, max i st.local_index_counter)],
             local_index_counter := max i st.local_index_counter + 1 }) := by
  unfold get_local_index
  simp only [hfresh]

/-- Unfolding equation for `get_local_index` on a seen key. -/
theorem get_local_index_found (st : TranslatorState) (i v : Int)
    (hfound : listLookup st.block_map (blockKey st.cycle_count i) = some v) :
    get_local_index st i = (v, st) := by
  unfold get_local_index
  simp only [hfound]

/-- The local indices assigned so far, in assignment order. -/
def assigned (st : TranslatorState) : List Int := st.block_map.map Prod.snd

/-- Run the translator over an event sequence, threading its state. -/
def runTranslate (st : TranslatorState) : List (String × Payload) → TranslatorState
  | [] => st
  | (ev, d) :: rest => runTranslate (translate st ev d).2 rest

/-- Invariant: the assigned local indices are strictly increasing in
assignment order and all lie below the counter. -/
def IndexInv (st : TranslatorState) : Prop :=
  List.Pairwise (· < ·) (assigned st)
  ∧ ∀ v ∈ assigned st, v < st.local_index_counter

theorem indexInv_init : IndexInv initTranslator := by
  constructor <;> simp [assigned, initTranslator]

theorem indexInv_gli (st : TranslatorState) (i : Int) (h : IndexInv st) :
    IndexInv (get_local_index st i).2 := by
  obtain ⟨hpair, hlt⟩ := h
  rcases hl : listLookup st.block_map (blockKey st.cycle_count i) with _ | v
  · rw [get_local_index_fresh st i hl]
    have hasg : assigned { st with
        block_map :=
          st.block_map ++ [(blockKey st.cycle_count i, max i st.local_index_counter)],
        local_index_counter := max i st.local_index_counter + 1 }
        = assigned st ++ [max i st.local_index_counter] := by
      simp [assigned]
    constructor
    · show List.Pairwise (· < ·) (assigned _)
      rw [hasg, List.pairwise_append]
      refine ⟨hpair, by simp, ?_⟩
      intro a ha b hb
      simp only [List.mem_singleton] at hb
      subst hb
      exact lt_of_lt_of_le (hlt a ha) (le_max_right _ _)
    · intro v hv
      rw [hasg] at hv
      show v < max i st.local_index_counter + 1
      rcases List.mem_append.mp hv with hv | hv
      · have h1 := hlt v hv
        have h2 := le_max_right i st.local_index_counter
        omega
      · simp only [List.mem_singleton] at hv
        omega
  · rw [get_local_index_found st i v hl]
    exact ⟨hpair, hlt⟩

/-- The state after `translate` either keeps the block map and counter,
routes them through one `get_local_index` call, or resets them. -/
theorem translate_state_shape (st : TranslatorState) (ev : String) (d : Payload) :
    ((translate st ev d).2.block_map = st.block_map
      ∧ (translate st ev d).2.local_index_counter = st.local_index_counter)
    ∨ (translate st ev d).2 = (get_local_index st (server_index d)).2
    ∨ ((translate st ev d).2.block_map = []
      ∧ (translate st ev d).2.local_index_counter = 0) := by
  unfold translate
  split <;> dsimp only <;>
    first
    | (left; exact ⟨rfl, rfl⟩)
    | (right; right; exact ⟨rfl, rfl⟩)
    | (right; left; rfl)
    | ((repeat' split) <;> (left; exact ⟨rfl, rfl⟩))

theorem indexInv_translate (st : TranslatorState) (ev : String) (d : Payload)
    (h : IndexInv st) : IndexInv (translate st ev d).2 := by
  rcases translate_state_shape st ev d with ⟨h1, h2⟩ | h1 | ⟨h1, h2⟩
  · obtain ⟨hp, hb⟩ := h
    constructor
    · show List.Pairwise (· < ·) (assigned _)
      unfold assigned
      rw [h1]
      exact hp
    · intro v hv
      unfold assigned at hv
      rw [h1] at hv
      rw [h2]
      exact hb v hv
  · rw [h1]
    exact indexInv_gli st _ h
  · constructor
    · show List.Pairwise (· < ·) (assigned _)
      unfold assigned
      rw [h1]
      simp
    · intro v hv
      unfold assigned at hv
      rw [h1] at hv
      simp at hv

theorem indexInv_run (st : TranslatorState) (events : List (String × Payload))
    (h : IndexInv st) : IndexInv (runTranslate st events) := by
  induction events generalizing st with
  | nil => exact h
  | cons e rest ih =>
      obtain ⟨ev, d⟩ := e
      exact ih (translate st ev d).2 (indexInv_translate st ev d h)

/-- C1: on first sight of a `(cycle, raw_index)` pair, `get_local_index`
assigns `max(raw_index, counter)` and advances the counter past it;
from the reset state, the local indices assigned over any event
sequence are strictly increasing in assignment order (so each new one
exceeds every previous one and none repeats within a turn); and in the
concrete scenario — raw index 0 in cycle 0, one tool completion, raw
index 0 again in cycle 1 — the second occurrence maps to local index 1,
strictly above the first occurrence's 0. -/
theorem index_stabilization_monotone
    (st : TranslatorState) (i : Int)
    (hfresh : listLookup st.block_map (blockKey st.cycle_count i) = Option.none)
    (events : List (String × Payload)) :
    ((get_local_index st i).1 = max i st.local_index_counter
      ∧ (get_local_index st i).2.local_index_counter = (get_local_index st i).1 + 1)
    ∧ List.Pairwise (· < ·) (assigned (runTranslate initTranslator events))
    ∧ ((translate initTranslator "content_block:start"
          [("block_index", Val.int 0)]).1
        = .ok (some [("type", Val.str "content_start"),
                     ("block_type", Val.str "text"),
                     ("index", Val.int 0)])
       ∧ (translate (translate (translate initTranslator "content_block:start"
              [("block_index", Val.int 0)]).2
            "tool:post" [("tool_call_id", Val.str "t1")]).2
            "content_block:start" [("block_index", Val.int 0)]).1
        = .ok (some [("type", Val.str "content_start"),
                     ("block_type", Val.str "text"),
                     ("index", Val.int 1)])
       ∧ (0 : Int) < 1) := by
  refine ⟨?_, ?_, rfl, rfl, by decide⟩
  · rw [get_local_index_fresh st i hfresh]
    exact ⟨rfl, rfl⟩
  · exact (indexInv_run initTranslator events indexInv_init).1

/-- C1 witness: the first call on the reset state, and strictly
increasing assignments over the concrete two-cycle scenario. -/
theorem index_stabilization_monotone_witness :
    ((get_local_index initTranslator 0).1 = max 0 0
      ∧ (get_local_index initTranslator 0).2.local_index_counter
          = (get_local_index initTranslator 0).1 + 1)
    ∧ List.Pairwise (· < ·) (assigned (runTranslate initTranslator
        [("content_block:start", [("block_index", Val.int 0)]),
         ("tool:post", [("tool_call_id", Val.str "t1")]),
         ("content_block:start", [("block_index", Val.int 0)])])) :=
  ⟨(index_stabilization_monotone initTranslator 0 rfl []).1,
   (index_stabilization_monotone initTranslator 0 rfl
      [("content_block:start", [("block_index", Val.int 0)]),
       ("tool:post", [("tool_call_id", Val.str "t1")]),
       ("content_block:start", [("block_index", Val.int 0)])]).2.1⟩

/-! ## C3 — synthetic streaming on content_block:end -/

/-- C3 counterexample: a `content_block:end` carrying the 2-character
text "hi" for an index with no prior deltas makes the fan-out loop send
exactly ONE synthetic content_delta (the chunk size is 12), not the two
or more the claim requires. -/
theorem synthetic_streaming_single_delta :
    ((fanout_step { translator := initTranslator, seen_deltas := [] }
        "content_block:end" [("block_index", Val.int 0), ("text", Val.str "hi")]).1.countP
      (fun m => match listLookup m "type" with
                | some (Val.str t) => t == "content_delta"
                | _ => false)) = 1
    ∧ ¬ 2 ≤ ((fanout_step { translator := initTranslator, seen_deltas := [] }
        "content_block:end" [("block_index", Val.int 0), ("text", Val.str "hi")]).1.countP
      (fun m => match listLookup m "type" with
                | some (Val.str t) => t == "content_delta"
                | _ => false)) := by
  have h : ((fanout_step { translator := initTranslator, seen_deltas := [] }
        "content_block:end" [("block_index", Val.int 0), ("text", Val.str "hi")]).1.countP
      (fun m => match listLookup m "type" with
                | some (Val.str t) => t == "content_delta"
                | _ => false)) = 1 := rfl
  exact ⟨h, by rw [h]; omega⟩

theorem chunkCharsAux_flatten (fuel : Nat) :
    ∀ cs : List Char, cs.length ≤ fuel →
      (chunkCharsAux fuel cs).foldr (· ++ ·) [] = cs := by
  induction fuel with
  | zero =>
      intro cs h
      cases cs with
      | nil => rfl
      | cons c cs2 => simp at h
  | succ f ih =>
      intro cs h
      cases cs with
      | nil => rfl
      | cons c cs2 =>
          simp only [chunkCharsAux, List.foldr_cons]
          rw [ih ((c :: cs2).drop 12) (by simp [List.length_drop] at h ⊢; omega)]
          exact List.take_append_drop 12 (c :: cs2)

/-- Flattening the chunks recovers the original character list. -/
theorem chunkChars_flatten (cs : List Char) :
    (chunkChars cs).foldr (· ++ ·) [] = cs :=
  chunkCharsAux_flatten cs.length cs le_rfl

theorem chunkCharsAux_ne_nil (fuel : Nat) (cs : List Char)
    (hcs : cs ≠ []) (hf : 1 ≤ fuel) : chunkCharsAux fuel cs ≠ [] := by
  cases fuel with
  | zero => omega
  | succ f =>
      cases cs with
      | nil => exact absurd rfl hcs
      | cons c cs2 => simp [chunkCharsAux]

/-- A nonempty text yields at least one chunk. -/
theorem chunkChars_ne_nil (cs : List Char) (h : cs ≠ []) : chunkChars cs ≠ [] := by
  unfold chunkChars
  exact chunkCharsAux_ne_nil cs.length cs h (by
    have := List.length_pos.mpr h
    omega)

/-- A text longer than the chunk size yields at least two chunks. -/
theorem chunkChars_two_le (cs : List Char) (h : 12 < cs.length) :
    2 ≤ (chunkChars cs).length := by
  unfold chunkChars
  cases cs with
  | nil => simp at h
  | cons c cs2 =>
      show 2 ≤ (chunkCharsAux (cs2.length + 1) (c :: cs2)).length
      simp only [chunkCharsAux, List.length_cons]
      have hd : (c :: cs2).drop 12 ≠ [] := by
        intro he
        have h2 := congrArg List.length he
        simp only [List.length_drop, List.length_cons, List.length_nil] at h2
        simp only [List.length_cons] at h
        omega
      have hf : 1 ≤ cs2.length := by
        simp only [List.length_cons] at h
        omega
      have := List.length_pos.mpr (chunkCharsAux_ne_nil cs2.length ((c :: cs2).drop 12) hd hf)
      omega

theorem map_mk_foldr (ls : List (List Char)) :
    ((ls.map (fun cs => String.mk cs)).foldr (· ++ ·) "")
      = String.mk (ls.foldr (· ++ ·) []) := by
  induction ls with
  | nil => rfl
  | cons a rest ih =>
      simp only [List.map_cons, List.foldr_cons, ih]
      rfl

/-- Asking twice for the same raw index in the same cycle returns the
same local index without changing the state. -/
theorem get_local_index_idem (st : TranslatorState) (i : Int) :
    get_local_index (get_local_index st i).2 i
      = ((get_local_index st i).1, (get_local_index st i).2) := by
  rcases hl : listLookup st.block_map (blockKey st.cycle_count i) with _ | v
  · rw [get_local_index_fresh st i hl]
    apply get_local_index_found
    show listLookup (st.block_map ++ [(blockKey st.cycle_count i, max i st.local_index_counter)])
        (blockKey st.cycle_count i) = _
    rw [listLookup_append, hl]
    simp [listLookup]
  · rw [get_local_index_found st i v hl]
    exact get_local_index_found st i v hl

/-- The synthesis loop sends one content_delta per chunk, tagged with
the already-stabilized local index, and leaves the translator state
unchanged. -/
theorem synthChunks_spec (tr : TranslatorState) (k loc : Int)
    (hidem : get_local_index tr k = (loc, tr)) :
    ∀ pieces : List String,
      synthChunks tr k pieces
        = (pieces.map (fun c =>
             [("type", Val.str "content_delta"),
              ("delta", Val.str c),
              ("index", Val.int loc)]),
           tr, true) := by
  intro pieces
  induction pieces with
  | nil => rfl
  | cons c rest ih =>
      have htr : translate tr "content_block:delta"
          [("delta", Val.str c), ("block_index", Val.int k)]
          = (.ok (some [("type", Val.str "content_delta"),
                        ("delta", Val.str c),
                        ("index", Val.int loc)]), tr) := by
        simp [translate, getVal, getValD, listLookup, server_index, server_index_run,
              server_index_exc, server_index_raw, hidem]
      simp [synthChunks, htr, ih]

/-- C3 (amended): a `content_block:end` with non-empty final text for a
stabilized local index that saw no non-empty delta makes the fan-out
loop send the chunked synthetic content_delta messages followed by the
content_end — at least ONE delta, and at least two only when the text
exceeds the 12-character chunk size; their delta fields concatenate to
the text exactly, and every message carries the same stabilized local
index. -/
theorem synthetic_streaming_chunks
    (st : FanoutState) (data : Payload)
    (htext : block_text data ≠ "")
    (hseen : (get_local_index st.translator (server_index data)).1 ∉ st.seen_deltas) :
    (fanout_step st "content_block:end" data).1
      = ((chunkChars (block_text data).toList).map (fun cs =>
            [("type", Val.str "content_delta"),
             ("delta", Val.str (String.mk cs)),
             ("index", Val.int (get_local_index st.translator (server_index data)).1)]))
        ++ [[("type", Val.str "content_end"),
             ("index", Val.int (get_local_index st.translator (server_index data)).1),
             ("text", Val.str (block_text data))]]
    ∧ ((chunkChars (block_text data).toList).map (fun cs => String.mk cs)).foldr (· ++ ·) ""
        = block_text data
    ∧ 1 ≤ (chunkChars (block_text data).toList).length
    ∧ (12 < (block_text data).length → 2 ≤ (chunkChars (block_text data).toList).length) := by
  have hidem := get_local_index_idem st.translator (server_index data)
  refine ⟨?_, ?_, ?_, ?_⟩
  · unfold fanout_step
    rcases hg : get_local_index st.translator (server_index data) with ⟨loc, tr2⟩
    rw [hg] at hidem hseen
    have hsyn := synthChunks_spec tr2 (server_index data) loc hidem
        ((chunkChars (block_text data).toList).map (fun cs => String.mk cs))
    simp only [String.toList] at hsyn
    have hend : translate tr2 "content_block:end" data
        = (.ok (some [("type", Val.str "content_end"),
                      ("index", Val.int loc),
                      ("text", Val.str (block_text data))]), tr2) := by
      simp [translate, hidem]
    simp [hg, hsyn, hend, htext, hseen]
  · rw [map_mk_foldr, chunkChars_flatten]
    rfl
  · have hne : (block_text data).toList ≠ [] := by
      intro he
      exact htext (by
        have : (block_text data).data = [] := he
        cases hbt : block_text data with
        | mk l =>
            rw [hbt] at this
            simp at this
            rw [this])
    have := List.length_pos.mpr (chunkChars_ne_nil _ hne)
    omega
  · intro hlen
    exact chunkChars_two_le _ hlen

/-- C3 witness: the 26-character alphabet, never streamed, is sent as
three chunked deltas (12+12+2) and one content_end at index 0. -/
theorem synthetic_streaming_chunks_witness :
    (fanout_step { translator := initTranslator, seen_deltas := [] }
        "content_block:end"
        [("block_index", Val.int 0),
         ("text", Val.str "abcdefghijklmnopqrstuvwxyz")]).1
      = [[("type", Val.str "content_delta"),
          ("delta", Val.str "abcdefghijkl"),
          ("index", Val.int 0)],
         [("type", Val.str "content_delta"),
          ("delta", Val.str "mnopqrstuvwx"),
          ("index", Val.int 0)],
         [("type", Val.str "content_delta"),
          ("delta", Val.str "yz"),
          ("index", Val.int 0)],
         [("type", Val.str "content_end"),
          ("index", Val.int 0),
          ("text", Val.str "abcdefghijklmnopqrstuvwxyz")]]
    ∧ 2 ≤ (chunkChars ("abcdefghijklmnopqrstuvwxyz" : String).toList).length := by
  have h := synthetic_streaming_chunks
    { translator := initTranslator, seen_deltas := [] }
    [("block_index", Val.int 0), ("text", Val.str "abcdefghijklmnopqrstuvwxyz")]
    (by decide) (by decide)
  exact ⟨h.1.trans (by rfl), h.2.2.2 (by decide)⟩

end Amplifier
